import Mathlib

/-!
Shallow embedding of `src/document_manager.py` (class `DocumentManager`):
a content-addressed document store keeping a metadata mapping
(filename → record) alongside a backing directory of files.

Modelling choices:
* Byte strings are `List Nat`.
* The SHA-256 hex digest (`_calculate_file_hash`) is abstracted as a
  function parameter `hash : ByteSeq → String`; no claim depends on
  properties of SHA-256 beyond determinism.
* `datetime.now()` / file modification times are passed in as `now` /
  `mtime` parameters (the code only stores these strings).
* Python dicts are insertion-ordered association lists with unique keys;
  `alUpdate` replaces in place or appends (dict assignment), `alErase`
  removes the key (dict `del`).
* The backing directory (`docs_path`, default `"data"`) is an association
  list from filename to content.  The sidecar metadata file is modelled
  separately (field `persisted`: the mapping most recently written by
  `_save_metadata`); its serialized bytes only matter for the atomicity
  analysis of `_save_metadata`, done below on a micro-step trace.
* File writes and deletions succeed in the pure model; for
  `cleanup_orphaned_files`, whose contract is explicitly about swallowed
  per-file deletion failures, deletion outcomes are supplied by an oracle
  `canUnlink`.
-/

abbrev ByteSeq := List Nat

/-- One value of the metadata mapping: the dict built at
`document_manager.py:94-100` (upload) and `:218-225` (sync).  The optional
`synced` key is modelled as a `Bool` that is `false` when the key is absent
(records written by `add_document` omit it). -/
structure DocRecord where
  hash : String
  upload_date : String
  file_size : Nat
  file_path : String
  status : String
  synced : Bool
  deriving Repr, DecidableEq

/-- First value bound to key `k`, i.e. Python `d[k]` / `d.get(k)`. -/
def alLookup (k : String) : List (String × α) → Option α
  | [] => none
  | (k', v) :: rest => if k' = k then some v else alLookup k rest

/-- Python `k in d`. -/
def alContains (k : String) (l : List (String × α)) : Bool :=
  (alLookup k l).isSome

/-- Python `d[k] = v`: replace in place if present (keeping the entry's
position, as dicts do), else append at the end. -/
def alUpdate (k : String) (v : α) : List (String × α) → List (String × α)
  | [] => [(k, v)]
  | (k', v') :: rest =>
    if k' = k then (k, v) :: rest else (k', v') :: alUpdate k v rest

/-- Python `del d[k]` (on unique-key lists; also used for `unlink`). -/
def alErase (k : String) (l : List (String × α)) : List (String × α) :=
  l.filter (fun p => !(p.1 = k : Bool))

/-- In-memory manager state: the loaded `self.metadata` mapping, the files
of the backing directory, and the mapping last written to the sidecar
metadata file by `_save_metadata`. -/
structure ManagerState where
  metadata : List (String × DocRecord)
  files : List (String × ByteSeq)
  persisted : List (String × DocRecord)
  deriving Repr, DecidableEq

/-- `str(self.docs_path / filename)` with the default `docs_path`. -/
def mkFilePath (filename : String) : String := "data/" ++ filename

/-- Result dict of `check_duplicate` (`document_manager.py:46-72`).  Keys
absent from a given return are `none` / `false`. -/
structure DupResult where
  is_duplicate : Bool
  existing_file : Option String
  upload_date : Option String
  file_size : Option Nat
  same_name : Bool
  deriving Repr, DecidableEq

/-- `check_duplicate(filename, file_content)` (`document_manager.py:46-72`):
first scan the whole mapping for any record whose hash matches; only if
that finds nothing, check the same-filename record. -/
def check_duplicate (hash : ByteSeq → String) (meta : List (String × DocRecord))
    (filename : String) (file_content : ByteSeq) : DupResult :=
  let file_hash := hash file_content
  match meta.find? (fun p => p.2.hash = file_hash) with
  | some p =>
    { is_duplicate := true, existing_file := some p.1,
      upload_date := some p.2.upload_date, file_size := some p.2.file_size,
      same_name := false }
  | none =>
    match alLookup filename meta with
    | some r =>
      if r.hash = file_hash then
        { is_duplicate := true, existing_file := some filename,
          upload_date := some r.upload_date, file_size := some r.file_size,
          same_name := true }
      else
        { is_duplicate := false, existing_file := none, upload_date := none,
          file_size := none, same_name := false }
    | none =>
      { is_duplicate := false, existing_file := none, upload_date := none,
        file_size := none, same_name := false }

/-- Result dict of `add_document` (`document_manager.py:74-114`). -/
structure AddResult where
  success : Bool
  message : String
  duplicate_info : Option DupResult
  file_info : Option DocRecord
  deriving Repr, DecidableEq

/-- `add_document(filename, file_content, force_overwrite)`
(`document_manager.py:74-114`): bail out on a duplicate unless forced;
otherwise write the file, replace the metadata record wholesale, and
persist the mapping. -/
def add_document (hash : ByteSeq → String) (now : String) (st : ManagerState)
    (filename : String) (file_content : ByteSeq) (force_overwrite : Bool) :
    ManagerState × AddResult :=
  let duplicate_check := check_duplicate hash st.metadata filename file_content
  if duplicate_check.is_duplicate && !force_overwrite then
    (st, { success := false, message := "Duplicate file detected",
           duplicate_info := some duplicate_check, file_info := none })
  else
    let files' := alUpdate filename file_content st.files
    let newRec : DocRecord :=
      { hash := hash file_content, upload_date := now,
        file_size := file_content.length, file_path := mkFilePath filename,
        status := "active", synced := false }
    let meta' := alUpdate filename newRec st.metadata
    ({ metadata := meta', files := files', persisted := meta' },
     { success := true,
       message := "Document \"" ++ filename ++ "\" uploaded successfully",
       duplicate_info := none, file_info := some newRec })

/-- Result dict of `remove_document` (`document_manager.py:116-139`). -/
structure RemoveResult where
  success : Bool
  message : String
  deriving Repr, DecidableEq

/-- `remove_document(filename)` (`document_manager.py:116-139`): unlink the
file if it exists, then drop the metadata record (persisting) if present;
success in either case. -/
def remove_document (st : ManagerState) (filename : String) :
    ManagerState × RemoveResult :=
  let files' := alErase filename st.files
  if alContains filename st.metadata then
    let meta' := alErase filename st.metadata
    ({ metadata := meta', files := files', persisted := meta' },
     { success := true,
       message := "Document \"" ++ filename ++ "\" removed successfully" })
  else
    ({ st with files := files' },
     { success := true,
       message := "Document \"" ++ filename ++ "\" removed successfully" })

/-- `pathlib.PurePath.suffix`: the final `"." + extension` of the name,
empty when the only dot is leading or trailing (CPython: the last dot index
`i` must satisfy `0 < i < len(name) - 1`).  `revFindDot` returns the index
of the last `'.'`. -/
def revFindDot : List Char → Option Nat
  | [] => none
  | c :: rest =>
    match revFindDot rest with
    | some i => some (i + 1)
    | none => if c = '.' then some 0 else none

/-- See `revFindDot`. -/
def pathSuffix (name : String) : String :=
  let cs := name.toList
  match revFindDot cs with
  | none => ""
  | some i =>
    if 0 < i ∧ i + 1 < cs.length then String.mk (cs.drop i) else ""

/-- `str.lower()` on one character, for the ASCII range (the suffixes the
code compares against are ASCII, where this agrees with Python). -/
def lowerChar (c : Char) : Char :=
  if 65 ≤ c.toNat ∧ c.toNat ≤ 90 then Char.ofNat (c.toNat + 32) else c

/-- `str.lower()` (ASCII case folding; see `lowerChar`). -/
def strToLower (s : String) : String := String.mk (s.toList.map lowerChar)

/-- `str.endswith(post)`. -/
def strEndsWith (s post : String) : Bool :=
  let sl := s.toList
  let pl := post.toList
  pl = sl.drop (sl.length - pl.length)

/-- `file_path.suffix.lower() in ['.pdf', '.txt', '.docx']`
(`document_manager.py:177` and `:201`). -/
def recognizedExt (filename : String) : Bool :=
  [".pdf", ".txt", ".docx"].contains (strToLower (pathSuffix filename))

/-- The scan filter of `sync_with_filesystem` (`document_manager.py:200-206`):
recognized extension, and not the `*_metadata.json` sidecar. -/
def scannable (filename : String) : Bool :=
  recognizedExt filename && !(strEndsWith filename "_metadata.json")

/-- The record inserted for a file discovered by `sync_with_filesystem`
(`document_manager.py:218-225`); note the extra `synced: True` key. -/
def syncRecord (hash : ByteSeq → String) (mtime : String → String)
    (filename : String) (file_content : ByteSeq) : DocRecord :=
  { hash := hash file_content, upload_date := mtime filename,
    file_size := file_content.length, file_path := mkFilePath filename,
    status := "active", synced := true }

/-- The discovery loop of `sync_with_filesystem`
(`document_manager.py:200-231`) restricted to the already-filtered scan
list: insert a record for each file not yet tracked; returns the updated
mapping and the `new_files` names in scan order. -/
def addNewFiles (hash : ByteSeq → String) (mtime : String → String) :
    List (String × ByteSeq) → List (String × DocRecord) →
    List (String × DocRecord) × List String
  | [], m => (m, [])
  | (fn, c) :: rest, m =>
    if alContains fn m then addNewFiles hash mtime rest m
    else
      let res := addNewFiles hash mtime rest (alUpdate fn (syncRecord hash mtime fn c) m)
      (res.1, fn :: res.2)

/-- Result dict of `sync_with_filesystem` (`document_manager.py:246-251`). -/
structure SyncResult where
  synced_files : Nat
  new_files : Nat
  removed_files : Nat
  new_file_names : List String
  deriving Repr, DecidableEq

/-- `sync_with_filesystem()` (`document_manager.py:194-251`): adopt every
scannable directory file that has no record, then delete every record whose
backing file (of any name) no longer exists, then persist. -/
def sync_with_filesystem (hash : ByteSeq → String) (mtime : String → String)
    (st : ManagerState) : ManagerState × SyncResult :=
  let scanned := st.files.filter (fun p => scannable p.1)
  let added := addNewFiles hash mtime scanned st.metadata
  let keep := added.1.filter (fun p => alContains p.1 st.files)
  let removedNames := (added.1.filter (fun p => !alContains p.1 st.files)).map (fun p => p.1)
  ({ metadata := keep, files := st.files, persisted := keep },
   { synced_files := scanned.length, new_files := added.2.length,
     removed_files := removedNames.length, new_file_names := added.2 })

/-- Result dict of `cleanup_orphaned_files` (`document_manager.py:189-192`). -/
structure CleanupResult where
  removed_count : Nat
  orphaned_files : List String
  deriving Repr, DecidableEq

/-- `cleanup_orphaned_files()` (`document_manager.py:170-192`): collect the
directory files with a recognized extension but no metadata record, then
try to unlink each, counting only successful deletions (`canUnlink` is the
per-file success oracle; a failed unlink is swallowed by `except: pass` and
leaves the file in place).  The metadata mapping is never touched. -/
def cleanup_orphaned_files (canUnlink : String → Bool) (st : ManagerState) :
    ManagerState × CleanupResult :=
  let orphaned := (st.files.filter
      (fun p => !alContains p.1 st.metadata && recognizedExt p.1)).map (fun p => p.1)
  let removed := orphaned.filter (fun fn => canUnlink fn)
  let files' := st.files.filter (fun p => !(p.1 ∈ removed : Bool))
  ({ st with files := files' },
   { removed_count := removed.length, orphaned_files := orphaned })

/-- Python 3 `round` to 2 decimal places: nearest integer in hundredths,
ties to even (the float-representation error of binary doubles is not
modelled; no claim here hinges on a tie). -/
def roundHalfEven (q : ℚ) : ℤ :=
  if q - ⌊q⌋ < 1 / 2 then ⌊q⌋
  else if 1 / 2 < q - ⌊q⌋ then ⌊q⌋ + 1
  else if ⌊q⌋ % 2 = 0 then ⌊q⌋ else ⌊q⌋ + 1

/-- `round(x, 2)`. -/
def round2 (q : ℚ) : ℚ := (roundHalfEven (q * 100) : ℚ) / 100

/-- Result dict of `get_storage_stats` (`document_manager.py:266-271`). -/
structure StorageStats where
  total_files : Nat
  total_size_bytes : Nat
  total_size_mb : ℚ
  average_file_size_mb : ℚ
  deriving Repr, DecidableEq

/-- `get_storage_stats()` (`document_manager.py:253-271`): sync first, then
sum sizes and count over records with `status == 'active'`. -/
def get_storage_stats (hash : ByteSeq → String) (mtime : String → String)
    (st : ManagerState) : ManagerState × StorageStats :=
  let st1 := (sync_with_filesystem hash mtime st).1
  let active := st1.metadata.filter (fun p => p.2.status = "active")
  let total_size := (active.map (fun p => p.2.file_size)).sum
  let file_count := active.length
  (st1,
   { total_files := file_count, total_size_bytes := total_size,
     total_size_mb := round2 ((total_size : ℚ) / (1024 * 1024)),
     average_file_size_mb :=
       if 0 < file_count then
         round2 (((total_size : ℚ) / (file_count : ℚ)) / (1024 * 1024))
       else 0 })

/-- `_load_metadata` (`document_manager.py:15-23`).  `file` is the raw
content of the metadata file (`none` when the file does not exist);
`parseJson` models `json.load` restricted to mappings, returning `none` on
a `JSONDecodeError` (malformed contents). -/
def load_metadata (parseJson : List Nat → Option (List (String × DocRecord)))
    (file : Option (List Nat)) : List (String × DocRecord) :=
  match file with
  | none => []
  | some content =>
    match parseJson content with
    | some m => m
    | none => []

/-- Micro-step trace of `_save_metadata` (`document_manager.py:25-28`) as
seen on disk: the metadata file's raw content (`none` = file absent) before
the call, after `open(self.metadata_file, 'w')` has truncated it in place,
and after `json.dump` has written `newContent` (the serialized mapping).
A crash during the save leaves the file in one of these states. -/
def saveMetadataTrace (old : Option (List Nat)) (newContent : List Nat) :
    List (Option (List Nat)) :=
  [old, some [], some newContent]

/-- Atomicity as the spec demands of `save`: after stopping at any point of
the save, the file holds either the prior version or the complete new
content. -/
def atomicSaveProperty (old : Option (List Nat)) (newContent : List Nat) : Prop :=
  ∀ s ∈ saveMetadataTrace old newContent, s = old ∨ s = some newContent

instance (old : Option (List Nat)) (newContent : List Nat) :
    Decidable (atomicSaveProperty old newContent) := by
  unfold atomicSaveProperty
  infer_instance

-- Basic association-list lemmas.

theorem alLookup_mem {l : List (String × α)} {k : String} {v : α}
    (h : alLookup k l = some v) : (k, v) ∈ l := by
  induction l with
  | nil => simp [alLookup] at h
  | cons p rest ih =>
    by_cases hk : p.1 = k
    · simp only [alLookup] at h
      rw [if_pos hk] at h
      injection h with hv
      have hp : p = (k, v) := by
        cases p
        simp_all
      rw [hp]
      exact List.mem_cons_self _ _
    · simp only [alLookup] at h
      rw [if_neg hk] at h
      exact List.mem_cons_of_mem _ (ih h)

theorem alContains_of_mem {l : List (String × α)} {k : String} {v : α}
    (h : (k, v) ∈ l) : alContains k l = true := by
  induction l with
  | nil => simp at h
  | cons p rest ih =>
    rw [List.mem_cons] at h
    rcases h with h | h
    · simp [alContains, alLookup, ← h]
    · by_cases hk : p.1 = k
      · simp [alContains, alLookup, hk]
      · simpa [alContains, alLookup, hk] using ih h

theorem alContains_iff_exists {l : List (String × α)} {k : String} :
    alContains k l = true ↔ ∃ v, (k, v) ∈ l := by
  constructor
  · intro h
    rcases ho : alLookup k l with _ | v
    · simp [alContains, ho] at h
    · exact ⟨v, alLookup_mem ho⟩
  · rintro ⟨v, hv⟩
    exact alContains_of_mem hv

theorem alLookup_alUpdate_self (k : String) (v : α) (l : List (String × α)) :
    alLookup k (alUpdate k v l) = some v := by
  induction l with
  | nil => simp [alUpdate, alLookup]
  | cons p rest ih =>
    by_cases hk : p.1 = k
    · simp [alUpdate, alLookup, hk]
    · simp [alUpdate, alLookup, hk, ih]

theorem alLookup_alUpdate_ne {k' k : String} (hne : k' ≠ k) (v : α)
    (l : List (String × α)) :
    alLookup k' (alUpdate k v l) = alLookup k' l := by
  have hne' : k ≠ k' := Ne.symm hne
  induction l with
  | nil => simp [alUpdate, alLookup, hne']
  | cons p rest ih =>
    by_cases hk : p.1 = k
    · simp [alUpdate, alLookup, hk, hne']
    · simp only [alUpdate, if_neg hk, alLookup]
      by_cases hk' : p.1 = k'
      · simp [hk']
      · simp [hk', ih]

theorem alContains_alUpdate_iff (k k' : String) (v : α) (l : List (String × α)) :
    alContains k (alUpdate k' v l) = true ↔ k = k' ∨ alContains k l = true := by
  by_cases hk : k = k'
  · subst hk
    simp [alContains, alLookup_alUpdate_self]
  · rw [alContains, alLookup_alUpdate_ne hk]
    simp [alContains, hk]

theorem alContains_filter_key (f : String → Bool) (k : String)
    (l : List (String × α)) :
    alContains k (l.filter (fun p => f p.1)) = (alContains k l && f k) := by
  induction l with
  | nil => simp [alContains, alLookup]
  | cons p rest ih =>
    by_cases hf : f p.1
    · by_cases hk : p.1 = k
      · subst hk
        simp [List.filter, hf, alContains, alLookup]
      · simp only [List.filter, hf]
        simp only [alContains, alLookup, if_neg hk] at ih ⊢
        exact ih
    · by_cases hk : p.1 = k
      · subst hk
        simp only [List.filter, Bool.not_eq_true] at hf ⊢
        rw [hf]
        simp only [alContains, alLookup, if_pos rfl] at ih ⊢
        simp only [ih, hf]
        simp [alContains, Option.isSome]
      · simp only [List.filter, Bool.not_eq_true] at hf ⊢
        rw [hf]
        simp only [alContains, alLookup, if_neg hk] at ih ⊢
        exact ih

theorem alContains_alErase_self (k : String) (l : List (String × α)) :
    alContains k (alErase k l) = false := by
  rw [alErase, alContains_filter_key (fun s => !(s = k : Bool))]
  simp

theorem alContains_alErase_ne {g k : String} (hne : g ≠ k) (l : List (String × α)) :
    alContains g (alErase k l) = alContains g l := by
  rw [alErase, alContains_filter_key (fun s => !(s = k : Bool))]
  simp [hne]

theorem alErase_of_not_contains {k : String} {l : List (String × α)}
    (h : alContains k l = false) : alErase k l = l := by
  rw [alErase, List.filter_eq_self]
  intro p hp
  simp only [Bool.not_eq_true']
  by_contra hk
  simp only [Bool.not_eq_false, decide_eq_true_eq] at hk
  have : (k, p.2) ∈ l := by
    have hpp : p = (k, p.2) := by
      cases p
      simp_all
    rw [← hpp]
    exact hp
  rw [alContains_of_mem this] at h
  exact Bool.true_eq_false.mp h

theorem alErase_idem (k : String) (l : List (String × α)) :
    alErase k (alErase k l) = alErase k l :=
  alErase_of_not_contains (alContains_alErase_self k l)

-- Lemmas about the discovery loop of `sync_with_filesystem`.

theorem addNewFiles_contains_mono (hash : ByteSeq → String) (mtime : String → String)
    (scanned : List (String × ByteSeq)) {m : List (String × DocRecord)} {k : String}
    (h : alContains k m = true) :
    alContains k (addNewFiles hash mtime scanned m).1 = true := by
  induction scanned generalizing m with
  | nil => simpa [addNewFiles] using h
  | cons p rest ih =>
    rcases p with ⟨fn, c⟩
    by_cases hc : alContains fn m
    · simpa [addNewFiles, hc] using ih h
    · simp only [addNewFiles, hc, if_false]
      exact ih ((alContains_alUpdate_iff k fn _ m).mpr (Or.inr h))

theorem addNewFiles_contains_of_mem (hash : ByteSeq → String) (mtime : String → String)
    {scanned : List (String × ByteSeq)} {m : List (String × DocRecord)}
    {fn : String} {c : ByteSeq} (h : (fn, c) ∈ scanned) :
    alContains fn (addNewFiles hash mtime scanned m).1 = true := by
  induction scanned generalizing m with
  | nil => simp at h
  | cons p rest ih =>
    rcases p with ⟨g, d⟩
    rw [List.mem_cons] at h
    by_cases hc : alContains g m
    · simp only [addNewFiles, hc, if_true]
      rcases h with h | h
      · injection h with h1 _
        subst h1
        exact addNewFiles_contains_mono hash mtime rest hc
      · exact ih h
    · simp only [addNewFiles, hc, if_false]
      rcases h with h | h
      · injection h with h1 _
        subst h1
        exact addNewFiles_contains_mono hash mtime rest
          ((alContains_alUpdate_iff fn fn _ m).mpr (Or.inl rfl))
      · exact ih h

theorem addNewFiles_eq_of_all_contains (hash : ByteSeq → String) (mtime : String → String)
    {scanned : List (String × ByteSeq)} {m : List (String × DocRecord)}
    (h : ∀ p ∈ scanned, alContains p.1 m = true) :
    addNewFiles hash mtime scanned m = (m, []) := by
  induction scanned with
  | nil => rfl
  | cons p rest ih =>
    rcases p with ⟨fn, c⟩
    have hc : alContains fn m = true := h (fn, c) (List.mem_cons_self _ _)
    simp only [addNewFiles, hc, if_true]
    exact ih (fun q hq => h q (List.mem_cons_of_mem _ hq))

theorem addNewFiles_contains_iff (hash : ByteSeq → String) (mtime : String → String)
    (scanned : List (String × ByteSeq)) (m : List (String × DocRecord)) (k : String) :
    alContains k (addNewFiles hash mtime scanned m).1 = true ↔
      alContains k m = true ∨ ∃ c, (k, c) ∈ scanned := by
  induction scanned generalizing m with
  | nil => simp [addNewFiles]
  | cons p rest ih =>
    rcases p with ⟨fn, c⟩
    by_cases hc : alContains fn m
    · simp only [addNewFiles, hc, if_true]
      rw [ih]
      constructor
      · rintro (h | ⟨d, hd⟩)
        · exact Or.inl h
        · exact Or.inr ⟨d, List.mem_cons_of_mem _ hd⟩
      · rintro (h | ⟨d, hd⟩)
        · exact Or.inl h
        · rw [List.mem_cons] at hd
          rcases hd with hd | hd
          · injection hd with h1 _
            subst h1
            exact Or.inl hc
          · exact Or.inr ⟨d, hd⟩
    · simp only [addNewFiles, hc, Bool.false_eq_true, if_false]
      rw [ih, alContains_alUpdate_iff]
      constructor
      · rintro ((h | h) | ⟨d, hd⟩)
        · exact Or.inr ⟨c, h ▸ List.mem_cons_self _ _⟩
        · exact Or.inl h
        · exact Or.inr ⟨d, List.mem_cons_of_mem _ hd⟩
      · rintro (h | ⟨d, hd⟩)
        · exact Or.inl (Or.inr h)
        · rw [List.mem_cons] at hd
          rcases hd with hd | hd
          · injection hd with h1 _
            exact Or.inl (Or.inl h1)
          · exact Or.inr ⟨d, hd⟩

/-- C1: if filename `f` is tracked and the stored record's hash equals the
hash of content `b`, then `check_duplicate f b` does report a duplicate —
but the `same_name` flag is NOT set: the content-hash scan over all records
runs first, matches the record stored under `f` itself (or an earlier one
with the same hash), and returns without the flag, so the same-name branch
is unreachable. -/
theorem check_duplicate_same_filename_dup_without_flag
    (hash : ByteSeq → String) (meta : List (String × DocRecord))
    (filename : String) (content : ByteSeq) (r : DocRecord)
    (hlook : alLookup filename meta = some r) (hh : r.hash = hash content) :
    (check_duplicate hash meta filename content).is_duplicate = true ∧
    (check_duplicate hash meta filename content).same_name = false := by
  have hmem : (filename, r) ∈ meta := alLookup_mem hlook
  have hsome : (meta.find? (fun p => (p.2.hash = hash content : Bool))).isSome := by
    rw [List.find?_isSome]
    exact ⟨(filename, r), hmem, by simp [hh]⟩
  rcases Option.isSome_iff_exists.mp hsome with ⟨p, hp⟩
  simp [check_duplicate, hp]

def hashC1 : ByteSeq → String := fun _ => "h"

def recC1 : DocRecord :=
  { hash := "h", upload_date := "2024-01-01", file_size := 2,
    file_path := "data/report.txt", status := "active", synced := false }

def metaC1 : List (String × DocRecord) := [("report.txt", recC1)]

/-- C1 witness: the amended statement at a concrete store. -/
theorem check_duplicate_same_filename_dup_without_flag_witness :
    (check_duplicate hashC1 metaC1 "report.txt" [1, 2]).is_duplicate = true ∧
    (check_duplicate hashC1 metaC1 "report.txt" [1, 2]).same_name = false :=
  check_duplicate_same_filename_dup_without_flag hashC1 metaC1 "report.txt" [1, 2]
    recC1 (by decide) (by decide)

/-- C1 counterexample: `"report.txt"` is tracked, the stored hash equals
the hash of the re-uploaded bytes, yet the reported duplicate does not
carry the `same_name` indicator. -/
theorem check_duplicate_same_name_flag_cex :
    (alLookup "report.txt" metaC1).map DocRecord.hash = some (hashC1 [1, 2]) ∧
    (check_duplicate hashC1 metaC1 "report.txt" [1, 2]).is_duplicate = true ∧
    (check_duplicate hashC1 metaC1 "report.txt" [1, 2]).same_name = false := by
  decide

/-- C4: whenever `check_duplicate` reports a duplicate,
`add_document(_, _, force_overwrite = false)` returns the whole state
unchanged (no file written, no record upserted, no persist) together with a
failure result carrying the duplicate info. -/
theorem add_document_duplicate_rejected
    (hash : ByteSeq → String) (now : String) (st : ManagerState)
    (filename : String) (content : ByteSeq)
    (hdup : (check_duplicate hash st.metadata filename content).is_duplicate = true) :
    add_document hash now st filename content false =
      (st, { success := false, message := "Duplicate file detected",
             duplicate_info := some (check_duplicate hash st.metadata filename content),
             file_info := none }) := by
  simp [add_document, hdup]

def hashC4 : ByteSeq → String := fun _ => "h4"

def stC4 : ManagerState :=
  { metadata := [("notes.txt",
      { hash := "h4", upload_date := "2024-01-01", file_size := 5,
        file_path := "data/notes.txt", status := "active", synced := false })],
    files := [("notes.txt", [0, 1, 2, 3, 4])],
    persisted := [("notes.txt",
      { hash := "h4", upload_date := "2024-01-01", file_size := 5,
        file_path := "data/notes.txt", status := "active", synced := false })] }

/-- C4 witness: a duplicate upload (same bytes under a new name) is
rejected and the concrete store is untouched. -/
theorem add_document_duplicate_rejected_witness :
    add_document hashC4 "2024-02-02" stC4 "copy.txt" [0, 1, 2, 3, 4] false =
      (stC4, { success := false, message := "Duplicate file detected",
               duplicate_info :=
                 some (check_duplicate hashC4 stC4.metadata "copy.txt" [0, 1, 2, 3, 4]),
               file_info := none }) :=
  add_document_duplicate_rejected hashC4 "2024-02-02" stC4 "copy.txt" [0, 1, 2, 3, 4]
    (by decide)

/-- C5: `remove_document` always succeeds; afterwards the file and the
record for the filename are both absent, and a second `remove_document`
returns the same success with the state completely unchanged (idempotent,
whether or not the file or record existed to begin with). -/
theorem remove_document_idempotent (st : ManagerState) (filename : String) :
    (remove_document st filename).2.success = true ∧
    alContains filename (remove_document st filename).1.files = false ∧
    alContains filename (remove_document st filename).1.metadata = false ∧
    remove_document (remove_document st filename).1 filename =
      remove_document st filename := by
  by_cases hc : alContains filename st.metadata
  · refine ⟨?_, ?_, ?_, ?_⟩
    · simp [remove_document, hc]
    · simp [remove_document, hc, alContains_alErase_self]
    · simp [remove_document, hc, alContains_alErase_self]
    · simp only [remove_document, hc, if_true]
      simp only [alContains_alErase_self, Bool.false_eq_true, if_false, alErase_idem]
  · have hc' : alContains filename st.metadata = false := by
      simpa using hc
    refine ⟨?_, ?_, ?_, ?_⟩
    · simp [remove_document, hc']
    · simp [remove_document, hc', alContains_alErase_self]
    · simp [remove_document, hc']
    · simp only [remove_document, hc', Bool.false_eq_true, if_false]
      simp [alErase_idem]

/-- C7: `_load_metadata` returns the empty mapping, rather than failing,
when the persisted metadata file is missing (`file = none`) or its contents
do not parse as JSON (`parseJson content = none`, the
`json.JSONDecodeError` case). -/
theorem load_metadata_missing_or_malformed
    (parseJson : List Nat → Option (List (String × DocRecord)))
    (content : List Nat) (hbad : parseJson content = none) :
    load_metadata parseJson none = [] ∧
    load_metadata parseJson (some content) = [] := by
  refine ⟨rfl, ?_⟩
  simp [load_metadata, hbad]

/-- C7 witness: a parser that rejects the concrete bytes `[123]`. -/
theorem load_metadata_missing_or_malformed_witness :
    load_metadata (fun _ => none) none = [] ∧
    load_metadata (fun _ => none) (some [123]) = [] :=
  load_metadata_missing_or_malformed (fun _ => none) [123] rfl

/-- C3 (amended): `_save_metadata` is not atomic — it opens the metadata
file in write mode, truncating it in place, and then writes the serialized
mapping, so the trace passes through a truncated-empty state; only the
completed final step leaves the full new content.  Whenever the prior
content is not itself empty and the new content is nonempty, the truncated
intermediate state refutes the write-to-temporary-then-rename atomicity the
spec asserts. -/
theorem save_metadata_truncates_in_place
    (old : Option (List Nat)) (newContent : List Nat) :
    (saveMetadataTrace old newContent).getLast? = some (some newContent) ∧
    some ([] : List Nat) ∈ saveMetadataTrace old newContent ∧
    (old ≠ some [] → newContent ≠ [] → ¬ atomicSaveProperty old newContent) := by
  refine ⟨rfl, by simp [saveMetadataTrace], ?_⟩
  intro h1 h2 hatomic
  rcases hatomic (some []) (by simp [saveMetadataTrace]) with h | h
  · exact h1 h.symm
  · injection h with h'
    exact h2 h'.symm

/-- C3 witness: the amended statement at a concrete prior content `[1]` and
new content `[2]`. -/
theorem save_metadata_truncates_in_place_witness :
    ¬ atomicSaveProperty (some [1]) [2] :=
  (save_metadata_truncates_in_place (some [1]) [2]).2.2 (by decide) (by decide)

/-- C3 counterexample: with prior content `[1]` and new mapping serialized
as `[2]`, the save passes through the truncated state `some []`, which is
neither the prior version nor the complete new mapping — a failure there
leaves a truncated file. -/
theorem save_metadata_atomicity_cex :
    some ([] : List Nat) ∈ saveMetadataTrace (some [1]) [2] ∧
    some ([] : List Nat) ≠ some [1] ∧
    some ([] : List Nat) ≠ some [2] ∧
    ¬ atomicSaveProperty (some [1]) [2] := by
  refine ⟨by decide, by decide, by decide, ?_⟩
  intro hatomic
  rcases hatomic (some []) (by decide) with h | h <;> simp at h

/-- C6: a second `sync_with_filesystem` immediately after a first one (no
filesystem change in between) discovers no new files and removes no
records: the first pass reaches a fixed point. -/
theorem sync_with_filesystem_fixed_point
    (hash : ByteSeq → String) (mtime : String → String) (st : ManagerState) :
    (sync_with_filesystem hash mtime
        (sync_with_filesystem hash mtime st).1).2.new_files = 0 ∧
    (sync_with_filesystem hash mtime
        (sync_with_filesystem hash mtime st).1).2.removed_files = 0 := by
  set st1 := (sync_with_filesystem hash mtime st).1 with hdef
  have hfiles : st1.files = st.files := by
    rw [hdef]
    rfl
  have hmeta : st1.metadata =
      (addNewFiles hash mtime (st.files.filter (fun p => scannable p.1))
        st.metadata).1.filter (fun p => alContains p.1 st.files) := by
    rw [hdef]
    rfl
  have hscan : ∀ p ∈ st1.files.filter (fun p => scannable p.1),
      alContains p.1 st1.metadata = true := by
    intro p hp
    rw [hfiles] at hp
    have hmem : p ∈ st.files := (List.mem_filter.mp hp).1
    have h1 : alContains p.1
        ((addNewFiles hash mtime (st.files.filter (fun q => scannable q.1))
          st.metadata).1) = true := by
      have hps : (p.1, p.2) ∈ st.files.filter (fun q => scannable q.1) := by
        simpa using hp
      exact addNewFiles_contains_of_mem hash mtime hps
    have h2 : alContains p.1 st.files = true :=
      alContains_of_mem (show (p.1, p.2) ∈ st.files by simpa using hmem)
    rw [hmeta, alContains_filter_key (fun s => alContains s st.files), h1, h2]
    rfl
  have hadd : addNewFiles hash mtime
      (st1.files.filter (fun p => scannable p.1)) st1.metadata = (st1.metadata, []) :=
    addNewFiles_eq_of_all_contains hash mtime hscan
  have hkeep : ∀ p ∈ st1.metadata, alContains p.1 st1.files = true := by
    intro p hp
    rw [hmeta] at hp
    have h2 := (List.mem_filter.mp hp).2
    rw [hfiles]
    simpa using h2
  have hremoved : st1.metadata.filter (fun p => !alContains p.1 st1.files) = [] := by
    rw [List.filter_eq_nil_iff]
    intro p hp
    simp [hkeep p hp]
  constructor
  · show (addNewFiles hash mtime (st1.files.filter (fun p => scannable p.1))
      st1.metadata).2.length = 0
    rw [hadd]
    rfl
  · show (((addNewFiles hash mtime (st1.files.filter (fun p => scannable p.1))
      st1.metadata).1.filter (fun p => !alContains p.1 st1.files)).map
        (fun p => p.1)).length = 0
    rw [hadd]
    show ((st1.metadata.filter (fun p => !alContains p.1 st1.files)).map
      (fun p => p.1)).length = 0
    rw [hremoved]
    rfl

/-- C8 (amended): immediately after a `sync_with_filesystem` pass, a
metadata record for `k` exists iff the backing file `k` existed during the
pass AND (`k` was already tracked, or `k` passes the scan filter —
recognized extension and not the metadata sidecar).  In particular every
record whose backing file is gone was deleted in that pass, and every
scannable directory file has a record; but a tracked file without a
recognized extension keeps its record, so the claim's "iff a backing file
with a recognized extension existed" fails in general. -/
theorem sync_metadata_membership
    (hash : ByteSeq → String) (mtime : String → String) (st : ManagerState)
    (k : String) :
    alContains k (sync_with_filesystem hash mtime st).1.metadata = true ↔
      (alContains k st.files = true ∧
        (alContains k st.metadata = true ∨ scannable k = true)) := by
  have hmeta : (sync_with_filesystem hash mtime st).1.metadata =
      (addNewFiles hash mtime (st.files.filter (fun p => scannable p.1))
        st.metadata).1.filter (fun p => alContains p.1 st.files) := rfl
  rw [hmeta, alContains_filter_key (fun s => alContains s st.files),
    Bool.and_eq_true, addNewFiles_contains_iff]
  constructor
  · rintro ⟨h1 | ⟨c, hc⟩, h2⟩
    · exact ⟨h2, Or.inl h1⟩
    · have hf := List.mem_filter.mp hc
      exact ⟨h2, Or.inr (by simpa using hf.2)⟩
  · rintro ⟨h1, h2 | h2⟩
    · exact ⟨Or.inl h2, h1⟩
    · rcases alContains_iff_exists.mp h1 with ⟨c, hc⟩
      exact ⟨Or.inr ⟨c, List.mem_filter.mpr ⟨hc, by simpa using h2⟩⟩, h1⟩

def hashC8 : ByteSeq → String := fun _ => "x"

def mtimeC8 : String → String := fun _ => "m"

def stC8 : ManagerState :=
  { metadata := [("readme.md",
      { hash := "x", upload_date := "2024-01-01", file_size := 1,
        file_path := "data/readme.md", status := "active", synced := false })],
    files := [("readme.md", [7])],
    persisted := [] }

/-- C8 counterexample: `"readme.md"` (no recognized extension) is tracked
and its backing file exists, so its record survives the sync pass — yet no
backing file with a recognized extension existed, refuting the claimed
"record iff recognized-extension file" equivalence. -/
theorem sync_recognized_iff_cex :
    alContains "readme.md" (sync_with_filesystem hashC8 mtimeC8 stC8).1.metadata
      = true ∧
    recognizedExt "readme.md" = false ∧
    alContains "readme.md" stC8.files = true := by
  decide

/-- C9 (amended): for a tracked filename, `add_document` with
`force_overwrite = true` succeeds and REPLACES the record wholesale: hash,
timestamp and size are updated, but `status` is reset to `active` and the
provenance marker is dropped (`synced` becomes absent/false, even when the
old record had `synced = true`); all other records and files are untouched
and the new mapping is persisted. -/
theorem add_document_force_overwrite_replaces_record
    (hash : ByteSeq → String) (now : String) (st : ManagerState)
    (filename : String) (content : ByteSeq)
    (htracked : alContains filename st.metadata = true) :
    (add_document hash now st filename content true).2.success = true ∧
    alLookup filename (add_document hash now st filename content true).1.metadata =
      some { hash := hash content, upload_date := now,
             file_size := content.length, file_path := mkFilePath filename,
             status := "active", synced := false } ∧
    alLookup filename (add_document hash now st filename content true).1.files =
      some content ∧
    (∀ g, g ≠ filename →
      alLookup g (add_document hash now st filename content true).1.metadata =
        alLookup g st.metadata) ∧
    (∀ g, g ≠ filename →
      alLookup g (add_document hash now st filename content true).1.files =
        alLookup g st.files) ∧
    (add_document hash now st filename content true).1.persisted =
      (add_document hash now st filename content true).1.metadata := by
  refine ⟨?_, ?_, ?_, ?_, ?_, ?_⟩ <;>
    simp only [add_document, Bool.not_true, Bool.and_false, Bool.false_eq_true,
      if_false]
  · exact alLookup_alUpdate_self _ _ _
  · exact alLookup_alUpdate_self _ _ _
  · intro g hg
    exact alLookup_alUpdate_ne hg _ _
  · intro g hg
    exact alLookup_alUpdate_ne hg _ _

def hashC9 : ByteSeq → String := fun b => if b = [9] then "new" else "old"

def recC9 : DocRecord :=
  { hash := "old", upload_date := "T0", file_size := 1,
    file_path := "data/doc.txt", status := "active", synced := true }

def recC9keep : DocRecord :=
  { hash := "k", upload_date := "T0", file_size := 2,
    file_path := "data/keep.txt", status := "active", synced := true }

def stC9 : ManagerState :=
  { metadata := [("doc.txt", recC9), ("keep.txt", recC9keep)],
    files := [("doc.txt", [1]), ("keep.txt", [2, 2])],
    persisted := [("doc.txt", recC9), ("keep.txt", recC9keep)] }

/-- C9 witness: the amended statement at a concrete store whose tracked
record was filesystem-discovered (`synced = true`). -/
theorem add_document_force_overwrite_replaces_record_witness :
    (add_document hashC9 "T1" stC9 "doc.txt" [9] true).2.success = true ∧
    alLookup "doc.txt" (add_document hashC9 "T1" stC9 "doc.txt" [9] true).1.metadata =
      some { hash := "new", upload_date := "T1", file_size := 1,
             file_path := "data/doc.txt", status := "active", synced := false } ∧
    alLookup "keep.txt" (add_document hashC9 "T1" stC9 "doc.txt" [9] true).1.metadata =
      alLookup "keep.txt" stC9.metadata := by
  have h := add_document_force_overwrite_replaces_record hashC9 "T1" stC9 "doc.txt" [9]
    (by decide)
  refine ⟨h.1, ?_, h.2.2.2.1 "keep.txt" (by decide)⟩
  rw [h.2.1]
  decide

/-- C9 counterexample: the record under `"doc.txt"` has `synced = true`
before the overwrite-add; afterwards the overwrite-add succeeded but the
persisted `synced` flag is gone (`false`), so the origin marker is NOT left
unchanged. -/
theorem add_document_force_synced_flag_cex :
    (alLookup "doc.txt" stC9.metadata).map DocRecord.synced = some true ∧
    (add_document hashC9 "T1" stC9 "doc.txt" [9] true).2.success = true ∧
    (alLookup "doc.txt"
        (add_document hashC9 "T1" stC9 "doc.txt" [9] true).1.metadata).map
      DocRecord.synced = some false := by
  decide

/-- C10: `cleanup_orphaned_files` collects exactly the directory files that
have a recognized extension and no metadata record, deletes each of them
whose unlink succeeds (failures are swallowed, the file stays), counts only
the successful deletions in `removed_count`, and leaves the metadata
mapping, the persisted mapping, and every tracked file untouched. -/
theorem cleanup_orphaned_files_spec (canUnlink : String → Bool) (st : ManagerState) :
    (cleanup_orphaned_files canUnlink st).1.metadata = st.metadata ∧
    (cleanup_orphaned_files canUnlink st).1.persisted = st.persisted ∧
    (∀ fn, fn ∈ (cleanup_orphaned_files canUnlink st).2.orphaned_files ↔
      (alContains fn st.metadata = false ∧ recognizedExt fn = true ∧
        ∃ c, (fn, c) ∈ st.files)) ∧
    (∀ fn, alContains fn st.metadata = true →
      alContains fn (cleanup_orphaned_files canUnlink st).1.files =
        alContains fn st.files) ∧
    (∀ fn, fn ∈ (cleanup_orphaned_files canUnlink st).2.orphaned_files →
      canUnlink fn = true →
      alContains fn (cleanup_orphaned_files canUnlink st).1.files = false) ∧
    (∀ fn, canUnlink fn = false →
      alContains fn (cleanup_orphaned_files canUnlink st).1.files =
        alContains fn st.files) ∧
    (cleanup_orphaned_files canUnlink st).2.removed_count =
      ((cleanup_orphaned_files canUnlink st).2.orphaned_files.filter
        (fun fn => canUnlink fn)).length := by
  have horph : ∀ fn, fn ∈ (cleanup_orphaned_files canUnlink st).2.orphaned_files ↔
      (alContains fn st.metadata = false ∧ recognizedExt fn = true ∧
        ∃ c, (fn, c) ∈ st.files) := by
    intro fn
    show fn ∈ (st.files.filter
        (fun p => !alContains p.1 st.metadata && recognizedExt p.1)).map
          (fun p => p.1) ↔ _
    rw [List.mem_map]
    constructor
    · rintro ⟨p, hp, rfl⟩
      have hf := List.mem_filter.mp hp
      have hcond := hf.2
      rw [Bool.and_eq_true] at hcond
      refine ⟨by simpa using hcond.1, hcond.2, p.2, by simpa using hf.1⟩
    · rintro ⟨h1, h2, c, hc⟩
      exact ⟨(fn, c), List.mem_filter.mpr ⟨hc, by simp [h1, h2]⟩, rfl⟩
  have hfiles : ∀ fn, alContains fn (cleanup_orphaned_files canUnlink st).1.files =
      (alContains fn st.files &&
        !(fn ∈ ((cleanup_orphaned_files canUnlink st).2.orphaned_files.filter
          (fun g => canUnlink g)) : Bool)) := by
    intro fn
    exact alContains_filter_key
      (fun s => !(s ∈ ((cleanup_orphaned_files canUnlink st).2.orphaned_files.filter
        (fun g => canUnlink g)) : Bool)) fn st.files
  refine ⟨rfl, rfl, horph, ?_, ?_, ?_, rfl⟩
  · intro fn htr
    rw [hfiles fn]
    have hnot : (fn ∈ ((cleanup_orphaned_files canUnlink st).2.orphaned_files.filter
        (fun g => canUnlink g)) : Bool) = false := by
      rw [decide_eq_false_iff_not]
      intro hmem
      have ho := (horph fn).mp (List.mem_filter.mp hmem).1
      rw [htr] at ho
      exact Bool.true_eq_false.mp ho.1
    rw [hnot]
    simp
  · intro fn hmem hcan
    rw [hfiles fn]
    have hyes : (fn ∈ ((cleanup_orphaned_files canUnlink st).2.orphaned_files.filter
        (fun g => canUnlink g)) : Bool) = true := by
      rw [decide_eq_true_eq]
      exact List.mem_filter.mpr ⟨hmem, hcan⟩
    rw [hyes]
    simp
  · intro fn hcan
    rw [hfiles fn]
    have hnot : (fn ∈ ((cleanup_orphaned_files canUnlink st).2.orphaned_files.filter
        (fun g => canUnlink g)) : Bool) = false := by
      rw [decide_eq_false_iff_not]
      intro hmem
      rw [(List.mem_filter.mp hmem).2] at hcan
      exact Bool.true_eq_false.mp hcan
    rw [hnot]
    simp

def unlinkC10 : String → Bool := fun fn => fn = "junk.pdf"

def recC10 : DocRecord :=
  { hash := "k", upload_date := "T0", file_size := 1,
    file_path := "data/keep.txt", status := "active", synced := false }

def stC10 : ManagerState :=
  { metadata := [("keep.txt", recC10)],
    files := [("keep.txt", [1]), ("junk.pdf", [2]), ("stuck.txt", [3]),
              ("notes.bin", [4])],
    persisted := [("keep.txt", recC10)] }

/-- C10 witness: a concrete run with one tracked file, one orphan whose
unlink succeeds, one orphan whose unlink fails (swallowed), and one
untracked file with an unrecognized extension. -/
theorem cleanup_orphaned_files_spec_witness :
    (cleanup_orphaned_files unlinkC10 stC10).1.metadata = stC10.metadata ∧
    "junk.pdf" ∈ (cleanup_orphaned_files unlinkC10 stC10).2.orphaned_files ∧
    alContains "junk.pdf" (cleanup_orphaned_files unlinkC10 stC10).1.files = false ∧
    alContains "keep.txt" (cleanup_orphaned_files unlinkC10 stC10).1.files =
      alContains "keep.txt" stC10.files ∧
    alContains "stuck.txt" (cleanup_orphaned_files unlinkC10 stC10).1.files =
      alContains "stuck.txt" stC10.files := by
  have h := cleanup_orphaned_files_spec unlinkC10 stC10
  have hmem : "junk.pdf" ∈ (cleanup_orphaned_files unlinkC10 stC10).2.orphaned_files :=
    (h.2.2.1 "junk.pdf").mpr ⟨by decide, by decide, ⟨[2], by decide⟩⟩
  exact ⟨h.1, hmem, h.2.2.2.2.1 "junk.pdf" hmem (by decide),
    h.2.2.2.1 "keep.txt" (by decide), h.2.2.2.2.2.1 "stuck.txt" (by decide)⟩

/-- C2 (amended): `get_storage_stats` syncs first and aggregates over the
post-sync records with `status = active`: `total_size_mb` is the active
byte total divided by 1,048,576 and rounded to 2 decimals, and
`average_file_size_mb` is `round2((totalBytes / count) / 1,048,576)` when
the count is positive (NOT `total_size_mb / count`, which the rounding
makes different in general) and `0` when the count is `0`. -/
theorem get_storage_stats_spec
    (hash : ByteSeq → String) (mtime : String → String) (st : ManagerState) :
    (get_storage_stats hash mtime st).1 = (sync_with_filesystem hash mtime st).1 ∧
    (get_storage_stats hash mtime st).2.total_files =
      ((sync_with_filesystem hash mtime st).1.metadata.filter
        (fun p => p.2.status = "active")).length ∧
    (get_storage_stats hash mtime st).2.total_size_bytes =
      (((sync_with_filesystem hash mtime st).1.metadata.filter
        (fun p => p.2.status = "active")).map (fun p => p.2.file_size)).sum ∧
    (get_storage_stats hash mtime st).2.total_size_mb =
      round2 (((get_storage_stats hash mtime st).2.total_size_bytes : ℚ) / 1048576) ∧
    ((get_storage_stats hash mtime st).2.total_files = 0 →
      (get_storage_stats hash mtime st).2.average_file_size_mb = 0) ∧
    (0 < (get_storage_stats hash mtime st).2.total_files →
      (get_storage_stats hash mtime st).2.average_file_size_mb =
        round2 ((((get_storage_stats hash mtime st).2.total_size_bytes : ℚ) /
          ((get_storage_stats hash mtime st).2.total_files : ℚ)) / 1048576)) := by
  set c := ((sync_with_filesystem hash mtime st).1.metadata.filter
    (fun p => p.2.status = "active")).length with hcdef
  set t := (((sync_with_filesystem hash mtime st).1.metadata.filter
    (fun p => p.2.status = "active")).map (fun p => p.2.file_size)).sum with htdef
  have hcc : (get_storage_stats hash mtime st).2.total_files = c := rfl
  have htt : (get_storage_stats hash mtime st).2.total_size_bytes = t := rfl
  have hmb : (get_storage_stats hash mtime st).2.total_size_mb =
      round2 ((t : ℚ) / (1024 * 1024)) := rfl
  have havg : (get_storage_stats hash mtime st).2.average_file_size_mb =
      (if 0 < c then round2 (((t : ℚ) / (c : ℚ)) / (1024 * 1024)) else 0) := rfl
  refine ⟨rfl, hcc, htt, ?_, ?_, ?_⟩
  · rw [hmb, htt]
    exact congrArg round2 (by norm_num)
  · intro h0
    rw [hcc] at h0
    rw [havg, h0]
    simp
  · intro hpos
    rw [hcc] at hpos
    rw [havg, if_pos hpos, htt, hcc]
    exact congrArg round2 (by norm_num)

def hashC2 : ByteSeq → String := fun _ => "h2"

def mtimeC2 : String → String := fun _ => "m2"

def recC2 (n : Nat) : DocRecord :=
  { hash := "h2", upload_date := "d", file_size := n,
    file_path := "", status := "active", synced := false }

def stC2 : ManagerState :=
  { metadata := [("a1.txt", recC2 3145728), ("a2.txt", recC2 0),
                 ("a3.txt", recC2 0), ("a4.txt", recC2 0), ("a5.txt", recC2 0),
                 ("a6.txt", recC2 0), ("a7.txt", recC2 0)],
    files := [("a1.txt", []), ("a2.txt", []), ("a3.txt", []), ("a4.txt", []),
              ("a5.txt", []), ("a6.txt", []), ("a7.txt", [])],
    persisted := [] }

/-- C2 witness: the amended average formula at a concrete store with 7
active records totalling 3 MiB. -/
theorem get_storage_stats_spec_witness :
    (get_storage_stats hashC2 mtimeC2 stC2).2.average_file_size_mb =
      round2 ((((get_storage_stats hashC2 mtimeC2 stC2).2.total_size_bytes : ℚ) /
        ((get_storage_stats hashC2 mtimeC2 stC2).2.total_files : ℚ)) / 1048576) :=
  (get_storage_stats_spec hashC2 mtimeC2 stC2).2.2.2.2.2 (by decide)

/-- C2 counterexample: with 7 active records totalling 3 MiB (3,145,728
bytes), the code returns `total_size_mb = 3` and
`average_file_size_mb = 0.43` (= `round((3145728/7)/2^20, 2)`), whereas the
claim's `totalSizeMB / count` would be `3/7 = 0.428571…` — so
`averageSizeMB ≠ totalSizeMB / count`. -/
theorem get_storage_stats_average_cex :
    (get_storage_stats hashC2 mtimeC2 stC2).2.total_files = 7 ∧
    (get_storage_stats hashC2 mtimeC2 stC2).2.total_size_mb = 3 ∧
    (get_storage_stats hashC2 mtimeC2 stC2).2.average_file_size_mb = 43 / 100 ∧
    (get_storage_stats hashC2 mtimeC2 stC2).2.average_file_size_mb ≠
      (get_storage_stats hashC2 mtimeC2 stC2).2.total_size_mb /
        ((get_storage_stats hashC2 mtimeC2 stC2).2.total_files : ℚ) := by
  have hmb : (get_storage_stats hashC2 mtimeC2 stC2).2.total_size_mb =
      round2 ((((3145728 : Nat) : ℚ)) / (1024 * 1024)) := rfl
  have havg : (get_storage_stats hashC2 mtimeC2 stC2).2.average_file_size_mb =
      round2 ((((3145728 : Nat) : ℚ) / ((7 : Nat) : ℚ)) / (1024 * 1024)) := rfl
  have e1 : (((3145728 : Nat) : ℚ)) / (1024 * 1024) * 100 = 300 := by
    push_cast
    norm_num
  have e2 : (((3145728 : Nat) : ℚ) / ((7 : Nat) : ℚ)) / (1024 * 1024) * 100 =
      300 / 7 := by
    push_cast
    norm_num
  have r1 : roundHalfEven 300 = 300 := by
    rw [roundHalfEven]
    norm_num
  have r2 : roundHalfEven (300 / 7) = 43 := by
    rw [roundHalfEven]
    norm_num
  have hmb3 : (get_storage_stats hashC2 mtimeC2 stC2).2.total_size_mb = 3 := by
    rw [hmb, round2, e1, r1]
    norm_num
  have havg43 : (get_storage_stats hashC2 mtimeC2 stC2).2.average_file_size_mb =
      43 / 100 := by
    rw [havg, round2, e2, r2]
    norm_num
  refine ⟨by decide, hmb3, havg43, ?_⟩
  rw [hmb3, havg43]
  have h7 : ((get_storage_stats hashC2 mtimeC2 stC2).2.total_files : ℚ) = 7 := by
    norm_num [show (get_storage_stats hashC2 mtimeC2 stC2).2.total_files = 7 from by decide]
  rw [h7]
  norm_num
